import Mathlib

/-!
Verification development for the daily feature extractor (data_fetcher.py).

The Python module is embedded shallowly:

* naive local datetimes are modelled as a count of local seconds, and the
  process time zone as a fixed offset `off` (seconds east of UTC), so that
  datetime.timestamp() is subtraction of `off` and datetime.fromtimestamp(ts)
  is addition of `off`;
* Python dictionaries become association lists (first match wins on lookup,
  dict.update overwrites existing keys and appends new ones);
* the MySQL tables become lists of typed rows, and each SQL statement of the
  source becomes a Lean function over that store, with the exact `>`/`<`
  timestamp predicates of the source queries;
* the external per-feature normalization functions (processing_data.py, an
  external collaborator of this module) are parameters of the embedding;
* numeric aggregates are computed in ℚ.
-/

/-- Local hour of a unix timestamp under a fixed UTC offset `off`
(datetime.fromtimestamp(ts).hour without DST). -/
def localHour (off ts : Int) : Int := ((ts + off) % 86400) / 3600

/-- Embeds DataFetcher.get_weekday: datetime.fromtimestamp(timestamp).weekday(),
Monday = 0, under a fixed UTC offset.  1970-01-01 (local day 0) was a Thursday,
weekday 3. -/
def get_weekday (off ts : Int) : Int := ((ts + off).fdiv 86400 + 3) % 7

/-- Embeds DataFetcher.timestamp_to_time_of_day. -/
def timestamp_to_time_of_day (off ts : Int) : String :=
  let hour := localHour off ts
  if hour < 10 then "early"
  else if hour < 14 then "midday"
  else "late"

/-- A value stored in a result dictionary / database row. -/
inductive Value where
  | null : Value
  | int : Int → Value
  | rat : ℚ → Value
  | str : String → Value
  deriving DecidableEq, Repr

/-- A Python dictionary (a DictCursor row, or the results dictionary):
an association list, first match wins on lookup. -/
abbrev Row := List (String × Value)

/-- Dictionary lookup. -/
def rowLookup (r : Row) (k : String) : Option Value :=
  (r.find? (fun p => p.1 == k)).map (fun p => p.2)

/-- Python `k in d`. -/
def rowHasKey (r : Row) (k : String) : Bool :=
  r.any (fun p => p.1 == k)

/-- Python `d[k] = v`: overwrite in place if the key exists, else append. -/
def rowSet (r : Row) (k : String) (v : Value) : Row :=
  if rowHasKey r k then r.map (fun p => if p.1 == k then (k, v) else p)
  else r ++ [(k, v)]

/-- Python `del d[k]`. -/
def rowDel (r : Row) (k : String) : Row :=
  r.filter (fun p => p.1 != k)

/-- Python `d.update(upd)`: set every binding of `upd` in `d`, in order. -/
def dictUpdate (d upd : Row) : Row :=
  upd.foldl (fun acc kv => rowSet acc kv.1 kv.2) d

/-- A row of the SlackType table. -/
structure SlackRow where
  timestamp : Int
  channel_name : Option String
  deriving DecidableEq, Repr

/-- A row of the SlackReactionType table. -/
structure SlackReactionRow where
  timestamp : Int
  reaction : String
  positive_ratio : Option ℚ
  neutral_ratio : ℚ
  negative_ratio : ℚ
  deriving DecidableEq, Repr

/-- A row of the GithubType table. -/
structure GithubRow where
  timestamp : Int
  deriving DecidableEq, Repr

/-- A row of the EventRatingType table (a bounded button vote). -/
structure EventRatingRow where
  timestamp : Int
  button : Int
  deriving DecidableEq, Repr

/-- A row of the YrType weather table. -/
structure YrRow where
  timestamp : Int
  temperature : ℚ
  precipitation : ℚ
  deriving DecidableEq, Repr

/-- A row of the DayRatingType table (the label source). -/
structure DayRatingRow where
  timestamp : Int
  button : Int
  deriving DecidableEq, Repr

/-- The relational store read by the extractor. -/
structure Store where
  slackType : List SlackRow
  slackReactionType : List SlackReactionRow
  githubType : List GithubRow
  eventRatingType : List EventRatingRow
  yrType : List YrRow
  dayRatingType : List DayRatingRow
  deriving DecidableEq, Repr

/-- The timestamp predicate every window-scoped query of the source uses:
timestamp > timestamp_from AND timestamp < timestamp_to (both strict). -/
def inWindow (tf tt ts : Int) : Bool := tf < ts && ts < tt

/-- SQL average sum(x)/count(x) over a list of integers: NULL (none) on an
empty list. -/
def avgOf (l : List Int) : Option ℚ :=
  if l.isEmpty then none
  else some (((l.foldl (fun s x => s + x) 0 : Int) : ℚ) / (l.length : ℚ))

/-- SQL average over a list of rationals: NULL (none) on an empty list. -/
def avgQ (l : List ℚ) : Option ℚ :=
  if l.isEmpty then none
  else some ((l.foldl (fun s x => s + x) 0) / (l.length : ℚ))

/-- slack_sql: SELECT timestamp FROM SlackType WHERE timestamp>%s AND timestamp<%s. -/
def slackQuery (st : Store) (tf tt : Int) : List Row :=
  (st.slackType.filter (fun r => inWindow tf tt r.timestamp)).map
    (fun r => [("timestamp", Value.int r.timestamp)])

/-- The rows slack_reactions_sql aggregates over: window-scoped and
positive_ratio IS NOT NULL. -/
def reactionRows (st : Store) (tf tt : Int) : List SlackReactionRow :=
  st.slackReactionType.filter
    (fun r => inWindow tf tt r.timestamp && r.positive_ratio.isSome)

/-- GROUP BY reaction: one output row per distinct reaction (first-occurrence
order), with count(*) and the non-aggregated ratio columns taken from the
first row of each group. -/
def groupReactions (rows : List SlackReactionRow) : List Row :=
  ((rows.map (fun r => r.reaction)).eraseDups).map (fun re =>
    let g := rows.filter (fun r => r.reaction == re)
    [("reaction", Value.str re),
     ("count", Value.int g.length),
     ("positive_ratio",
       match g.head? with
       | some r => match r.positive_ratio with
         | some q => Value.rat q
         | none => Value.null
       | none => Value.null),
     ("neutral_ratio",
       match g.head? with
       | some r => Value.rat r.neutral_ratio
       | none => Value.null),
     ("negative_ratio",
       match g.head? with
       | some r => Value.rat r.negative_ratio
       | none => Value.null)])

/-- slack_reactions_sql. -/
def reactionQuery (st : Store) (tf tt : Int) : List Row :=
  groupReactions (reactionRows st tf tt)

/-- github_sql: SELECT COUNT(*) AS count FROM GithubType WHERE window. -/
def githubQuery (st : Store) (tf tt : Int) : Row :=
  [("count",
    Value.int ((st.githubType.filter (fun r => inWindow tf tt r.timestamp)).length))]

/-- event_rating_sql: SELECT (sum(button)/count(button))*1000 AS ratio. -/
def eventRatingQuery (st : Store) (tf tt : Int) : Row :=
  let btns := (st.eventRatingType.filter (fun r => inWindow tf tt r.timestamp)).map
    (fun r => r.button)
  [("ratio",
    match avgOf btns with
    | none => Value.null
    | some a => Value.rat (a * 1000))]

/-- yr_sql: 10 * average temperature and 100 * average precipitation. -/
def yrQuery (st : Store) (tf tt : Int) : Row :=
  let rows := st.yrType.filter (fun r => inWindow tf tt r.timestamp)
  [("temp",
    match avgQ (rows.map (fun r => r.temperature)) with
    | none => Value.null
    | some a => Value.rat (10 * a)),
   ("prec",
    match avgQ (rows.map (fun r => r.precipitation)) with
    | none => Value.null
    | some a => Value.rat (100 * a))]

/-- channel_name IN ("rant", "ubw") — NULL channel names never match. -/
def negChannel (r : SlackRow) : Bool :=
  r.channel_name == some "rant" || r.channel_name == some "ubw"

/-- negative_slack_sql with its four placeholders made explicit: the nested
sub-aggregate (denominator, total message count) is scoped by (p1, p2) and the
outer filter (numerator, messages in the named channels) by (p3, p4).
Division by a zero denominator is NULL in MySQL. -/
def negativeSlackQuery (st : Store) (p1 p2 p3 p4 : Int) : Row :=
  let den := (st.slackType.filter (fun r => inWindow p1 p2 r.timestamp)).length
  let num := (st.slackType.filter
    (fun r => negChannel r && inWindow p3 p4 r.timestamp)).length
  [("ratio",
    if den = 0 then Value.null
    else Value.rat (1000 * ((num : ℚ) / (den : ℚ))))]

/-- The negative-channel query exactly as fetch_x_data issues it:
sql_params = (timestamp_from, timestamp_to) * 2 binds the same pair to the
sub-aggregate and to the outer filter. -/
def negativeCall (st : Store) (tf tt : Int) : Row :=
  negativeSlackQuery st tf tt tf tt

/-- sum(button)/count(button) over the window of the DayRatingType table:
none when no rating lies in the window (SQL NULL aggregate). -/
def avgDayRating (st : Store) (tf tt : Int) : Option ℚ :=
  avgOf ((st.dayRatingType.filter (fun r => inWindow tf tt r.timestamp)).map
    (fun r => r.button))

/-- The rescaling applied to the label average: (avg + 1) / 2. -/
def rescale (a : ℚ) : ℚ := (a + 1) / 2

/-- Embeds DataFetcher.fetch_label, instrumented with the number of SQL
queries the call issues (second component).  `now` is
datetime.now().timestamp(). -/
def fetch_label_q (now off : Int) (st : Store) (tf tt : Int)
    (skip_weekend : Bool := true) : Option ℚ × Nat :=
  if skip_weekend ∧ (get_weekday off tt = 5 ∨ get_weekday off tt = 6) then (none, 0)
  else if now < tt then (none, 0)
  else
    match avgDayRating st tf tt with
    | none => (none, 1)
    | some a => (some (rescale a), 1)

/-- DataFetcher.fetch_label, value only. -/
def fetch_label (now off : Int) (st : Store) (tf tt : Int)
    (skip_weekend : Bool := true) : Option ℚ :=
  (fetch_label_q now off st tf tt skip_weekend).1

/-- The external per-feature normalization functions of processing_data.py,
collaborators of the extractor: raw row(s) in, flat partial feature mapping
out. -/
structure ProcessingFuncs where
  process_slack_data : List Row → Row
  process_slack_reaction_data : List Row → Row
  process_github_data : Row → Row
  process_event_rating_data : Row → Row
  process_weather_data : Row → Row
  process_slack_negative_data : Row → Row

/-- The per-row reshaping of execute_sql_and_process: set a time_of_day bucket
computed from the row timestamp, then delete the raw timestamp key. -/
def bucketRow (off : Int) (r : Row) : Row :=
  match rowLookup r "timestamp" with
  | some (Value.int ts) =>
      rowDel (rowSet r "time_of_day" (Value.str (timestamp_to_time_of_day off ts)))
        "timestamp"
  | _ => r

/-- The fetchall branch of execute_sql_and_process: when the result is
non-empty and its first row carries a timestamp key, re-express every row. -/
def bucket_rows (off : Int) (rows : List Row) : List Row :=
  match rows with
  | [] => []
  | r0 :: _ => if rowHasKey r0 "timestamp" then rows.map (bucketRow off) else rows

/-- Embeds DataFetcher.fetch_x_data: the results dictionary starts with the
weekday of timestamp_to and each query result, normalized by its processing
function, is merged in by dict.update in source order. -/
def fetch_x_data (P : ProcessingFuncs) (off : Int) (st : Store)
    (tf tt : Int) : Row :=
  let results : Row := [("weekday", Value.int (get_weekday off tt))]
  let results := dictUpdate results
    (P.process_slack_data (bucket_rows off (slackQuery st tf tt)))
  let results := dictUpdate results
    (P.process_slack_reaction_data (bucket_rows off (reactionQuery st tf tt)))
  let results := dictUpdate results (P.process_github_data (githubQuery st tf tt))
  let results := dictUpdate results
    (P.process_event_rating_data (eventRatingQuery st tf tt))
  let results := dictUpdate results (P.process_weather_data (yrQuery st tf tt))
  let results := dictUpdate results
    (P.process_slack_negative_data (negativeCall st tf tt))
  results

/-- The loop body of DataFetcher.fetch_data: date_from and date_to are naive
local datetimes (seconds), the fuel is the remaining range(days) iterations,
and the accumulators are the x_data_list and label_list being appended to. -/
def fetch_data_go (P : ProcessingFuncs) (now off : Int) (st : Store)
    (date_from date_to : Int) : Nat → List Row × List ℚ → List Row × List ℚ
  | 0, acc => acc
  | n + 1, acc =>
    let tf := date_from - off
    let tt := date_to - off
    match fetch_label now off st tf tt true with
    | some l =>
        fetch_data_go P now off st (date_from + 86400) (date_to + 86400) n
          (acc.1 ++ [fetch_x_data P off st tf tt], acc.2 ++ [l])
    | none =>
        fetch_data_go P now off st (date_from + 86400) (date_to + 86400) n acc

/-- Embeds DataFetcher.fetch_data: date_to starts one day after date_from and
range(days) runs the body days times (zero times when days ≤ 0). -/
def fetch_data (P : ProcessingFuncs) (now off : Int) (st : Store)
    (date_from : Int) (days : Int := 1) : List Row × List ℚ :=
  fetch_data_go P now off st date_from (date_from + 86400) days.toNat ([], [])

/-- The (feature record, label) pairs the loop emits, in emission order. -/
def fetch_pairs (P : ProcessingFuncs) (now off : Int) (st : Store)
    (date_from date_to : Int) : Nat → List (Row × ℚ)
  | 0 => []
  | n + 1 =>
    (match fetch_label now off st (date_from - off) (date_to - off) true with
     | some l => [(fetch_x_data P off st (date_from - off) (date_to - off), l)]
     | none => []) ++
    fetch_pairs P now off st (date_from + 86400) (date_to + 86400) n

/-- The (timestamp_from, timestamp_to) window of day i of a run starting at
naive local datetime date_from. -/
def dayWindow (off date_from : Int) (i : Nat) : Int × Int :=
  (date_from + 86400 * i - off, date_from + 86400 * (i + 1) - off)

/-- What day i of a run contributes: none when its label is absent, the
(feature record, label) pair otherwise. -/
def dayResult (P : ProcessingFuncs) (now off : Int) (st : Store)
    (date_from : Int) (i : Nat) : Option (Row × ℚ) :=
  (fetch_label now off st (dayWindow off date_from i).1
      (dayWindow off date_from i).2 true).map
    (fun l => (fetch_x_data P off st (dayWindow off date_from i).1
      (dayWindow off date_from i).2, l))

/-- The successive (date_from, date_to) naive datetime windows of the loop. -/
def fetch_windows (date_from date_to : Int) : Nat → List (Int × Int)
  | 0 => []
  | n + 1 => (date_from, date_to) :: fetch_windows (date_from + 86400) (date_to + 86400) n

/-- The configuration values read from the process environment at first
connection use (the DATAPLATTFORM_AURORA_* variables, port already parsed
as an integer). -/
structure EnvCfg where
  host : String
  db_name : String
  username : String
  password : String
  port : Int
  deriving DecidableEq, Repr

/-- A pymysql connection handle, as visible through its construction
parameters. -/
structure Conn where
  host : String
  user : String
  password : String
  db : String
  port : Int
  charset : String
  deriving DecidableEq, Repr

/-- The pymysql.connect call of the private constructor. -/
def mkConn (cfg : EnvCfg) : Conn :=
  { host := cfg.host, user := cfg.username, password := cfg.password,
    db := cfg.db_name, port := cfg.port, charset := "utf8mb4" }

/-- The error taxonomy of the extractor. -/
inductive FetchErr where
  | configurationError (msg : String) : FetchErr
  deriving DecidableEq, Repr

/-- Embeds the private constructor: raises when the class-level connection is
already set, otherwise connects from the environment configuration and sets
it. -/
def DataFetcher_init (cfg : EnvCfg) (conn : Option Conn) :
    Except FetchErr (Option Conn) :=
  match conn with
  | some _ => Except.error (FetchErr.configurationError
      "This class should only be created once.")
  | none => Except.ok (some (mkConn cfg))

/-- Embeds DataFetcher.get_connection over the class-level connection state:
returns the handle, creating it on first use. -/
def get_connection_st (cfg : EnvCfg) (conn : Option Conn) : Conn × Option Conn :=
  match conn with
  | some c => (c, some c)
  | none => (mkConn cfg, some (mkConn cfg))

/-- The mutable process state the extractor touches: the class-level
connection and the relational store behind it. -/
structure Sys where
  conn : Option Conn
  store : Store

/-- Run one SELECT: acquire the connection (creating it on first use) and
read the store.  SELECT statements do not write the store. -/
def runSelect {α : Type} (cfg : EnvCfg) (q : Store → α) (s : Sys) : α × Sys :=
  let pr := get_connection_st cfg s.conn
  (q s.store, { conn := pr.2, store := s.store })

/-- State-passing fetch_label: the two early returns issue no query. -/
def fetch_label_st (cfg : EnvCfg) (now off : Int) (tf tt : Int)
    (skip_weekend : Bool) (s : Sys) : Option ℚ × Sys :=
  if skip_weekend ∧ (get_weekday off tt = 5 ∨ get_weekday off tt = 6) then (none, s)
  else if now < tt then (none, s)
  else
    let pr := runSelect cfg (fun st => avgDayRating st tf tt) s
    (pr.1.map rescale, pr.2)

/-- State-passing fetch_x_data: the six queries in source order. -/
def fetch_x_data_st (cfg : EnvCfg) (P : ProcessingFuncs) (off : Int)
    (tf tt : Int) (s : Sys) : Row × Sys :=
  let r0 : Row := [("weekday", Value.int (get_weekday off tt))]
  let p1 := runSelect cfg (fun st => slackQuery st tf tt) s
  let r1 := dictUpdate r0 (P.process_slack_data (bucket_rows off p1.1))
  let p2 := runSelect cfg (fun st => reactionQuery st tf tt) p1.2
  let r2 := dictUpdate r1 (P.process_slack_reaction_data (bucket_rows off p2.1))
  let p3 := runSelect cfg (fun st => githubQuery st tf tt) p2.2
  let r3 := dictUpdate r2 (P.process_github_data p3.1)
  let p4 := runSelect cfg (fun st => eventRatingQuery st tf tt) p3.2
  let r4 := dictUpdate r3 (P.process_event_rating_data p4.1)
  let p5 := runSelect cfg (fun st => yrQuery st tf tt) p4.2
  let r5 := dictUpdate r4 (P.process_weather_data p5.1)
  let p6 := runSelect cfg (fun st => negativeCall st tf tt) p5.2
  (dictUpdate r5 (P.process_slack_negative_data p6.1), p6.2)

/-- State-passing loop body of fetch_data. -/
def fetch_data_go_st (cfg : EnvCfg) (P : ProcessingFuncs) (now off : Int)
    (date_from date_to : Int) :
    Nat → List Row × List ℚ → Sys → (List Row × List ℚ) × Sys
  | 0, acc, s => (acc, s)
  | n + 1, acc, s =>
    let tf := date_from - off
    let tt := date_to - off
    let lp := fetch_label_st cfg now off tf tt true s
    match lp.1 with
    | some l =>
        let xp := fetch_x_data_st cfg P off tf tt lp.2
        fetch_data_go_st cfg P now off (date_from + 86400) (date_to + 86400) n
          (acc.1 ++ [xp.1], acc.2 ++ [l]) xp.2
    | none =>
        fetch_data_go_st cfg P now off (date_from + 86400) (date_to + 86400) n
          acc lp.2

/-- State-passing fetch_data. -/
def fetch_data_st (cfg : EnvCfg) (P : ProcessingFuncs) (now off : Int)
    (date_from : Int) (days : Int) (s : Sys) : (List Row × List ℚ) × Sys :=
  fetch_data_go_st cfg P now off date_from (date_from + 86400) days.toNat
    ([], []) s

/-- Processing functions that contribute nothing, for concrete instances. -/
def P0 : ProcessingFuncs where
  process_slack_data := fun _ => []
  process_slack_reaction_data := fun _ => []
  process_github_data := fun _ => []
  process_event_rating_data := fun _ => []
  process_weather_data := fun _ => []
  process_slack_negative_data := fun _ => []

/-- An empty store. -/
def store0 : Store :=
  { slackType := [], slackReactionType := [], githubType := [],
    eventRatingType := [], yrType := [], dayRatingType := [] }

/-- A store holding one day rating (button vote 1) inside the window
(0, 86400). -/
def store1 : Store := { store0 with dayRatingType := [{ timestamp := 40000, button := 1 }] }

/-- A store holding one chat message at 11:00 local time of day 0. -/
def store2 : Store := { store0 with slackType := [{ timestamp := 39600, channel_name := none }] }

/-- C2: fetch_label performs its three absence checks in this exact order with
short-circuiting: with skip_weekend set and the weekday of timestamp_to equal
to Saturday (5) or Sunday (6) it returns absent issuing no query; else when
the wall clock is earlier than timestamp_to it returns absent issuing no
query; only otherwise does it issue the single rating-average query, returning
absent exactly when the aggregate is null and the rescaled average
otherwise. -/
theorem fetch_label_check_order (now off : Int) (st : Store) (tf tt : Int)
    (skip_weekend : Bool) :
    (skip_weekend = true → (get_weekday off tt = 5 ∨ get_weekday off tt = 6) →
      fetch_label_q now off st tf tt skip_weekend = (none, 0)) ∧
    ((skip_weekend = true → ¬(get_weekday off tt = 5 ∨ get_weekday off tt = 6)) →
      now < tt →
      fetch_label_q now off st tf tt skip_weekend = (none, 0)) ∧
    ((skip_weekend = true → ¬(get_weekday off tt = 5 ∨ get_weekday off tt = 6)) →
      ¬(now < tt) →
      (fetch_label_q now off st tf tt skip_weekend).2 = 1 ∧
      (fetch_label_q now off st tf tt skip_weekend).1 =
        (avgDayRating st tf tt).map rescale) := by
  refine ⟨?_, ?_, ?_⟩
  · intro hs hw
    simp [fetch_label_q, hs, hw]
  · intro hns hlt
    have hcond : ¬(skip_weekend = true ∧
        (get_weekday off tt = 5 ∨ get_weekday off tt = 6)) := by
      rintro ⟨h1, h2⟩; exact hns h1 h2
    simp only [fetch_label_q]
    rw [if_neg hcond, if_pos hlt]
  · intro hns hge
    have hcond : ¬(skip_weekend = true ∧
        (get_weekday off tt = 5 ∨ get_weekday off tt = 6)) := by
      rintro ⟨h1, h2⟩; exact hns h1 h2
    simp only [fetch_label_q]
    rw [if_neg hcond, if_neg hge]
    cases h : avgDayRating st tf tt with
    | none => simp
    | some a => simp

/-- C2 witness: a Saturday end-timestamp (local day 2, weekday 5) with
skip_weekend set returns absent with zero queries. -/
theorem fetch_label_check_order_witness :
    (true = true) ∧ (get_weekday 0 172800 = 5 ∨ get_weekday 0 172800 = 6) ∧
    fetch_label_q 0 0 store0 0 172800 true = (none, 0) :=
  ⟨rfl, Or.inl (by decide),
    (fetch_label_check_order 0 0 store0 0 172800 true).1 rfl (Or.inl (by decide))⟩

/-- C3: the label rescaling is the linear bijection a to (a + 1) / 2 from
[-1, 1] onto [0, 1]; when the weekend and future checks pass and the rating
average is a, fetch_label returns exactly rescale a; boundary values
-1 to 0, 0 to 1/2, 1 to 1. -/
theorem label_rescale_bijection :
    (∀ (now off : Int) (st : Store) (tf tt : Int) (a : ℚ),
      ¬(get_weekday off tt = 5 ∨ get_weekday off tt = 6) → ¬(now < tt) →
      avgDayRating st tf tt = some a →
      fetch_label now off st tf tt true = some (rescale a)) ∧
    (∀ a : ℚ, rescale a = (a + 1) / 2) ∧
    (∀ a : ℚ, -1 ≤ a → a ≤ 1 → 0 ≤ rescale a ∧ rescale a ≤ 1) ∧
    (∀ a b : ℚ, rescale a = rescale b → a = b) ∧
    (∀ b : ℚ, 0 ≤ b → b ≤ 1 → ∃ a, -1 ≤ a ∧ a ≤ 1 ∧ rescale a = b) ∧
    rescale (-1) = 0 ∧ rescale 0 = 1 / 2 ∧ rescale 1 = 1 := by
  refine ⟨?_, ?_, ?_, ?_, ?_, by norm_num [rescale], by norm_num [rescale],
    by norm_num [rescale]⟩
  · intro now off st tf tt a hw hge ha
    simp only [fetch_label, fetch_label_q]
    split_ifs with h1
    · exact absurd h1.2 hw
    · rw [ha]
  · intro a; rfl
  · intro a h1 h2
    constructor <;> · simp only [rescale]; nlinarith
  · intro a b h
    simp only [rescale] at h
    nlinarith [h]
  · intro b h0 h1
    refine ⟨2 * b - 1, by linarith, by linarith, ?_⟩
    simp only [rescale]; ring

/-- C3 witness: a lone button vote of 1 in the window gives average 1 and
label 1, on a Friday (local day 1, weekday 4) already in the past. -/
theorem label_rescale_bijection_witness :
    ¬(get_weekday 0 86400 = 5 ∨ get_weekday 0 86400 = 6) ∧
    ¬((86400 : Int) < 86400) ∧
    avgDayRating store1 0 86400 = some 1 ∧
    fetch_label 86400 0 store1 0 86400 true = some (rescale 1) :=
  ⟨by decide, by decide,
    by simp [avgDayRating, avgOf, store1, store0, inWindow],
    label_rescale_bijection.1 86400 0 store1 0 86400 1 (by decide) (by decide)
      (by simp [avgDayRating, avgOf, store1, store0, inWindow])⟩

/-- C5: every window-scoped query keeps the strict predicates
timestamp > timestamp_from and timestamp < timestamp_to, so a stored row
whose timestamp equals either endpoint never changes any query result. -/
theorem boundary_rows_excluded (st : Store) (tf tt ts : Int)
    (hb : ts = tf ∨ ts = tt) :
    (∀ ch, slackQuery { st with slackType := ⟨ts, ch⟩ :: st.slackType } tf tt
        = slackQuery st tf tt) ∧
    (∀ re pr nr gr, reactionQuery
        { st with slackReactionType := ⟨ts, re, pr, nr, gr⟩ :: st.slackReactionType }
        tf tt = reactionQuery st tf tt) ∧
    (githubQuery { st with githubType := ⟨ts⟩ :: st.githubType } tf tt
        = githubQuery st tf tt) ∧
    (∀ b, eventRatingQuery
        { st with eventRatingType := ⟨ts, b⟩ :: st.eventRatingType } tf tt
        = eventRatingQuery st tf tt) ∧
    (∀ te pe, yrQuery { st with yrType := ⟨ts, te, pe⟩ :: st.yrType } tf tt
        = yrQuery st tf tt) ∧
    (∀ ch, negativeCall { st with slackType := ⟨ts, ch⟩ :: st.slackType } tf tt
        = negativeCall st tf tt) ∧
    (∀ b, avgDayRating { st with dayRatingType := ⟨ts, b⟩ :: st.dayRatingType }
        tf tt = avgDayRating st tf tt) := by
  have hw : inWindow tf tt ts = false := by
    rcases hb with h | h <;> subst h <;> simp [inWindow]
  refine ⟨?_, ?_, ?_, ?_, ?_, ?_, ?_⟩
  · intro ch; simp [slackQuery, List.filter_cons, hw]
  · intro re pr nr gr
    simp [reactionQuery, reactionRows, List.filter_cons, hw]
  · simp [githubQuery, List.filter_cons, hw]
  · intro b; simp [eventRatingQuery, List.filter_cons, hw]
  · intro te pe; simp [yrQuery, List.filter_cons, hw]
  · intro ch; simp [negativeCall, negativeSlackQuery, List.filter_cons, hw]
  · intro b; simp [avgDayRating, List.filter_cons, hw]

/-- C5 witness: a chat message stamped exactly at timestamp_from is invisible
to the message-timing query. -/
theorem boundary_rows_excluded_witness :
    ((0 : Int) = 0 ∨ (0 : Int) = 10) ∧
    slackQuery { store0 with slackType := ⟨0, none⟩ :: store0.slackType } 0 10
      = slackQuery store0 0 10 :=
  ⟨Or.inl rfl, (boundary_rows_excluded store0 0 10 0 (Or.inl rfl)).1 none⟩

/-- C6: the connection provider initializes the shared handle at most once:
the first use creates it from the environment configuration values, every
later call returns the same handle, and an explicit second initialization
while a handle exists fails with a ConfigurationError. -/
theorem connection_initialized_once (cfg : EnvCfg) (c : Conn) :
    get_connection_st cfg none = (mkConn cfg, some (mkConn cfg)) ∧
    (mkConn cfg).host = cfg.host ∧ (mkConn cfg).db = cfg.db_name ∧
    (mkConn cfg).user = cfg.username ∧ (mkConn cfg).password = cfg.password ∧
    (mkConn cfg).port = cfg.port ∧
    get_connection_st cfg (some c) = (c, some c) ∧
    DataFetcher_init cfg (some c) =
      Except.error (FetchErr.configurationError
        "This class should only be created once.") :=
  ⟨rfl, rfl, rfl, rfl, rfl, rfl, rfl, rfl⟩
theorem lookup_cons_pos (a : String × Value) (r : Row) (k : String)
    (h : (a.1 == k) = true) : rowLookup (a :: r) k = some a.2 := by
  unfold rowLookup
  rw [@List.find?_cons_of_pos _ (fun q => q.1 == k) a r h]
  rfl

theorem lookup_cons_neg (a : String × Value) (r : Row) (k : String)
    (h : (a.1 == k) = false) : rowLookup (a :: r) k = rowLookup r k := by
  unfold rowLookup
  rw [@List.find?_cons_of_neg _ (fun q => q.1 == k) a r
    (fun hc => Bool.false_ne_true (h ▸ hc))]

theorem lookup_map_set_self (r : Row) (k : String) (v : Value)
    (h : rowHasKey r k = true) :
    rowLookup (r.map (fun p => if p.1 == k then (k, v) else p)) k = some v := by
  induction r with
  | nil => simp [rowHasKey] at h
  | cons a r ih =>
    simp only [List.map_cons]
    by_cases ha : (a.1 == k) = true
    · rw [if_pos ha]
      exact lookup_cons_pos (k, v) _ k (by simp)
    · have ha' : (a.1 == k) = false := by
        cases hx : (a.1 == k) with
        | true => exact absurd hx ha
        | false => rfl
      have h' : rowHasKey r k = true := by
        simp only [rowHasKey, List.any_cons, ha', Bool.false_or] at h
        exact h
      rw [if_neg ha, lookup_cons_neg a _ k ha']
      exact ih h'

theorem lookup_append_single (r : Row) (k : String) (v : Value)
    (h : rowHasKey r k = false) :
    rowLookup (r ++ [(k, v)]) k = some v := by
  induction r with
  | nil => exact lookup_cons_pos (k, v) [] k (by simp)
  | cons a r ih =>
    simp only [rowHasKey, List.any_cons, Bool.or_eq_false_iff] at h
    rw [List.cons_append, lookup_cons_neg a _ k h.1]
    exact ih (by simp [rowHasKey, h.2])

theorem lookup_rowSet_self (r : Row) (k : String) (v : Value) :
    rowLookup (rowSet r k v) k = some v := by
  cases h : rowHasKey r k with
  | true =>
    rw [rowSet, if_pos h]
    exact lookup_map_set_self r k v h
  | false =>
    rw [rowSet, if_neg (by simp [h])]
    exact lookup_append_single r k v h

theorem lookup_map_set_ne (r : Row) (k2 k : String) (v : Value)
    (hne : (k2 == k) = false) :
    rowLookup (r.map (fun p => if p.1 == k2 then (k2, v) else p)) k
      = rowLookup r k := by
  induction r with
  | nil => rfl
  | cons a r ih =>
    simp only [List.map_cons]
    by_cases ha : (a.1 == k2) = true
    · have haeq : a.1 = k2 := by simpa using ha
      have hak : (a.1 == k) = false := by rw [haeq]; exact hne
      rw [if_pos ha, lookup_cons_neg (k2, v) _ k hne, lookup_cons_neg a r k hak]
      exact ih
    · have ha' : (a.1 == k2) = false := by
        cases hx : (a.1 == k2) with
        | true => exact absurd hx ha
        | false => rfl
      rw [if_neg ha]
      by_cases hk : (a.1 == k) = true
      · rw [lookup_cons_pos a _ k hk, lookup_cons_pos a r k hk]
      · have hk' : (a.1 == k) = false := by
          cases hx : (a.1 == k) with
          | true => exact absurd hx hk
          | false => rfl
        rw [lookup_cons_neg a _ k hk', lookup_cons_neg a r k hk']
        exact ih

theorem lookup_append_ne (r : Row) (k2 k : String) (v : Value)
    (hne : (k2 == k) = false) :
    rowLookup (r ++ [(k2, v)]) k = rowLookup r k := by
  have h2 : List.find? (fun p => p.1 == k) [(k2, v)] = none := by
    rw [List.find?_cons_of_neg _ (by simp [hne]), List.find?_nil]
  simp [rowLookup, List.find?_append, h2]

theorem lookup_rowSet_ne (r : Row) (k2 k : String) (v : Value)
    (hne : (k2 == k) = false) :
    rowLookup (rowSet r k2 v) k = rowLookup r k := by
  cases h : rowHasKey r k2 with
  | true =>
    rw [rowSet, if_pos h]
    exact lookup_map_set_ne r k2 k v hne
  | false =>
    rw [rowSet, if_neg (by simp [h])]
    exact lookup_append_ne r k2 k v hne

theorem lookup_rowSet_isSome (r : Row) (k2 k : String) (v : Value)
    (h : (rowLookup r k).isSome = true) :
    (rowLookup (rowSet r k2 v) k).isSome = true := by
  by_cases he : (k2 == k) = true
  · have : k2 = k := by simpa using he
    subst this
    rw [lookup_rowSet_self]
    rfl
  · have he' : (k2 == k) = false := by
      cases hx : (k2 == k) with
      | true => exact absurd hx he
      | false => rfl
    rw [lookup_rowSet_ne r k2 k v he']
    exact h

theorem lookup_dictUpdate_isSome (d upd : Row) (k : String)
    (h : (rowLookup d k).isSome = true) :
    (rowLookup (dictUpdate d upd) k).isSome = true := by
  induction upd generalizing d with
  | nil => exact h
  | cons kv upd ih =>
    simp only [dictUpdate, List.foldl_cons]
    exact ih (rowSet d kv.1 kv.2) (lookup_rowSet_isSome d kv.1 k kv.2 h)

theorem lookup_dictUpdate_not_mem (d upd : Row) (k : String)
    (h : ∀ p ∈ upd, (p.1 == k) = false) :
    rowLookup (dictUpdate d upd) k = rowLookup d k := by
  induction upd generalizing d with
  | nil => rfl
  | cons kv upd ih =>
    simp only [dictUpdate, List.foldl_cons]
    have step := ih (rowSet d kv.1 kv.2) (fun p hp => h p (List.mem_cons_of_mem kv hp))
    simp only [dictUpdate] at step
    rw [step, lookup_rowSet_ne d kv.1 k kv.2 (h kv (List.mem_cons_self kv upd))]

theorem bucketRow_single (off ts : Int) :
    bucketRow off [("timestamp", Value.int ts)] =
      [("time_of_day", Value.str (timestamp_to_time_of_day off ts))] := by
  simp [bucketRow, rowLookup, rowSet, rowHasKey, rowDel, List.find?_cons]
/-- C7 -/
theorem slack_rows_bucketed (off : Int) (st : Store) (tf tt : Int) :
    bucket_rows off (slackQuery st tf tt) =
      (st.slackType.filter (fun r => inWindow tf tt r.timestamp)).map
        (fun r => [("time_of_day",
          Value.str (timestamp_to_time_of_day off r.timestamp))]) ∧
    (∀ r ∈ bucket_rows off (slackQuery st tf tt),
      rowLookup r "timestamp" = none ∧
      (rowLookup r "time_of_day").isSome = true) ∧
    (∀ ts : Int, localHour off ts < 10 →
      timestamp_to_time_of_day off ts = "early") ∧
    (∀ ts : Int, 10 ≤ localHour off ts → localHour off ts < 14 →
      timestamp_to_time_of_day off ts = "midday") ∧
    (∀ ts : Int, 14 ≤ localHour off ts →
      timestamp_to_time_of_day off ts = "late") := by
  have key : ∀ l : List SlackRow,
      bucket_rows off (l.map (fun r => [("timestamp", Value.int r.timestamp)])) =
        l.map (fun r =>
          [("time_of_day", Value.str (timestamp_to_time_of_day off r.timestamp))]) := by
    intro l
    cases l with
    | nil => rfl
    | cons a l =>
      simp only [List.map_cons, bucket_rows]
      rw [if_pos (by simp [rowHasKey])]
      simp [List.map_map, Function.comp, bucketRow_single]
  have hmain : bucket_rows off (slackQuery st tf tt) =
      (st.slackType.filter (fun r => inWindow tf tt r.timestamp)).map
        (fun r => [("time_of_day",
          Value.str (timestamp_to_time_of_day off r.timestamp))]) := by
    simp only [slackQuery]
    exact key _
  refine ⟨hmain, ?_, ?_, ?_, ?_⟩
  · intro r hr
    rw [hmain] at hr
    obtain ⟨x, -, rfl⟩ := List.mem_map.mp hr
    constructor
    · simp [rowLookup, List.find?_cons]
    · simp [rowLookup, List.find?_cons]
  · intro ts h
    show (if localHour off ts < 10 then "early"
      else if localHour off ts < 14 then "midday" else "late") = "early"
    rw [if_pos h]
  · intro ts h1 h2
    show (if localHour off ts < 10 then "early"
      else if localHour off ts < 14 then "midday" else "late") = "midday"
    rw [if_neg (by omega), if_pos h2]
  · intro ts h
    show (if localHour off ts < 10 then "early"
      else if localHour off ts < 14 then "midday" else "late") = "late"
    rw [if_neg (by omega), if_neg (by omega)]

/-- C7 witness -/
theorem slack_rows_bucketed_witness :
    [("time_of_day", Value.str "midday")] ∈ bucket_rows 0 (slackQuery store2 0 86400) ∧
    rowLookup [("time_of_day", Value.str "midday")] "timestamp" = none ∧
    (rowLookup [("time_of_day", Value.str "midday")] "time_of_day").isSome = true :=
  ⟨by decide, (slack_rows_bucketed 0 store2 0 86400).2.1 _ (by decide)⟩

/-- C8 -/
theorem weekday_always_present (P : ProcessingFuncs) (off : Int) (st : Store)
    (tf tt : Int) :
    (rowLookup (fetch_x_data P off st tf tt) "weekday").isSome = true ∧
    ((∀ rows, ∀ p ∈ P.process_slack_data rows, (p.1 == "weekday") = false) →
     (∀ rows, ∀ p ∈ P.process_slack_reaction_data rows, (p.1 == "weekday") = false) →
     (∀ row, ∀ p ∈ P.process_github_data row, (p.1 == "weekday") = false) →
     (∀ row, ∀ p ∈ P.process_event_rating_data row, (p.1 == "weekday") = false) →
     (∀ row, ∀ p ∈ P.process_weather_data row, (p.1 == "weekday") = false) →
     (∀ row, ∀ p ∈ P.process_slack_negative_data row, (p.1 == "weekday") = false) →
      rowLookup (fetch_x_data P off st tf tt) "weekday" =
        some (Value.int (get_weekday off tt)) ∧
      0 ≤ get_weekday off tt ∧ get_weekday off tt ≤ 6) := by
  constructor
  · simp only [fetch_x_data]
    exact lookup_dictUpdate_isSome _ _ _
      (lookup_dictUpdate_isSome _ _ _
        (lookup_dictUpdate_isSome _ _ _
          (lookup_dictUpdate_isSome _ _ _
            (lookup_dictUpdate_isSome _ _ _
              (lookup_dictUpdate_isSome _ _ _ rfl)))))
  · intro h1 h2 h3 h4 h5 h6
    refine ⟨?_, ?_, ?_⟩
    · simp only [fetch_x_data]
      rw [lookup_dictUpdate_not_mem _ _ _ (h6 _),
        lookup_dictUpdate_not_mem _ _ _ (h5 _),
        lookup_dictUpdate_not_mem _ _ _ (h4 _),
        lookup_dictUpdate_not_mem _ _ _ (h3 _),
        lookup_dictUpdate_not_mem _ _ _ (h2 _),
        lookup_dictUpdate_not_mem _ _ _ (h1 _)]
      rfl
    · simp only [get_weekday]
      have := Int.emod_nonneg ((tt + off).fdiv 86400 + 3) (by norm_num : (7 : ℤ) ≠ 0)
      omega
    · simp only [get_weekday]
      have := Int.emod_lt_of_pos ((tt + off).fdiv 86400 + 3) (by norm_num : (0 : ℤ) < 7)
      omega

/-- C8 witness -/
theorem weekday_always_present_witness :
    (∀ rows, ∀ p ∈ P0.process_slack_data rows, (p.1 == "weekday") = false) ∧
    (∀ rows, ∀ p ∈ P0.process_slack_reaction_data rows, (p.1 == "weekday") = false) ∧
    (∀ row, ∀ p ∈ P0.process_github_data row, (p.1 == "weekday") = false) ∧
    (∀ row, ∀ p ∈ P0.process_event_rating_data row, (p.1 == "weekday") = false) ∧
    (∀ row, ∀ p ∈ P0.process_weather_data row, (p.1 == "weekday") = false) ∧
    (∀ row, ∀ p ∈ P0.process_slack_negative_data row, (p.1 == "weekday") = false) ∧
    (rowLookup (fetch_x_data P0 0 store0 0 86400) "weekday" =
      some (Value.int (get_weekday 0 86400)) ∧
    0 ≤ get_weekday 0 86400 ∧ get_weekday 0 86400 ≤ 6) := by
  have hA : ∀ rows, ∀ p ∈ P0.process_slack_data rows, (p.1 == "weekday") = false := by
    intro rows p hp; simp [P0] at hp
  have hB : ∀ rows, ∀ p ∈ P0.process_slack_reaction_data rows, (p.1 == "weekday") = false := by
    intro rows p hp; simp [P0] at hp
  have hC : ∀ row, ∀ p ∈ P0.process_github_data row, (p.1 == "weekday") = false := by
    intro row p hp; simp [P0] at hp
  have hD : ∀ row, ∀ p ∈ P0.process_event_rating_data row, (p.1 == "weekday") = false := by
    intro row p hp; simp [P0] at hp
  have hE : ∀ row, ∀ p ∈ P0.process_weather_data row, (p.1 == "weekday") = false := by
    intro row p hp; simp [P0] at hp
  have hF : ∀ row, ∀ p ∈ P0.process_slack_negative_data row, (p.1 == "weekday") = false := by
    intro row p hp; simp [P0] at hp
  exact ⟨hA, hB, hC, hD, hE, hF,
    (weekday_always_present P0 0 store0 0 86400).2 hA hB hC hD hE hF⟩

/-- C10 -/
theorem negative_query_single_window (st : Store) (tf tt : Int) :
    negativeCall st tf tt = negativeSlackQuery st tf tt tf tt ∧
    (∀ r : SlackRow, (negChannel r && inWindow tf tt r.timestamp) = true →
      inWindow tf tt r.timestamp = true) ∧
    (st.slackType.filter
        (fun r => negChannel r && inWindow tf tt r.timestamp)).length ≤
      (st.slackType.filter (fun r => inWindow tf tt r.timestamp)).length := by
  refine ⟨rfl, ?_, ?_⟩
  · intro r h
    exact (Bool.and_eq_true _ _ ▸ h).2
  · rw [← List.countP_eq_length_filter, ← List.countP_eq_length_filter]
    exact List.countP_mono_left (fun r _ h => (Bool.and_eq_true _ _ ▸ h).2)

/-- C10 witness -/
theorem negative_query_single_window_witness :
    ((negChannel ⟨50, some "rant"⟩ && inWindow 0 86400 (50 : Int)) = true) ∧
    inWindow 0 86400 (50 : Int) = true :=
  ⟨by decide,
    (negative_query_single_window store0 0 86400).2.1 ⟨50, some "rant"⟩ (by decide)⟩
theorem fetch_data_go_eq (P : ProcessingFuncs) (now off : Int) (st : Store)
    (df dt : Int) (n : Nat) (xs : List Row) (ls : List ℚ) :
    fetch_data_go P now off st df dt n (xs, ls) =
      (xs ++ (fetch_pairs P now off st df dt n).map Prod.fst,
       ls ++ (fetch_pairs P now off st df dt n).map Prod.snd) := by
  induction n generalizing df dt xs ls with
  | zero => simp [fetch_data_go, fetch_pairs]
  | succ n ih =>
    simp only [fetch_data_go, fetch_pairs]
    cases h : fetch_label now off st (df - off) (dt - off) true with
    | none => simp [ih]
    | some l => simp [ih]

theorem fetch_pairs_eq_range (P : ProcessingFuncs) (now off : Int) (st : Store)
    (df dt : Int) (n : Nat) :
    fetch_pairs P now off st df dt n =
      (List.range n).filterMap (fun (i : Nat) =>
        (fetch_label now off st (df + 86400 * (i : Int) - off)
            (dt + 86400 * (i : Int) - off) true).map
          (fun l => (fetch_x_data P off st (df + 86400 * (i : Int) - off)
            (dt + 86400 * (i : Int) - off), l))) := by
  induction n generalizing df dt with
  | zero => rfl
  | succ n ih =>
    rw [List.range_succ_eq_map, List.filterMap_cons, List.filterMap_map]
    have harg1 : ∀ i : Int, df + 86400 * (i + 1) - off = df + 86400 + 86400 * i - off := by
      intro i; ring
    have harg2 : ∀ i : Int, dt + 86400 * (i + 1) - off = dt + 86400 + 86400 * i - off := by
      intro i; ring
    have htail : (List.range n).filterMap ((fun (i : Nat) =>
        (fetch_label now off st (df + 86400 * (i : Int) - off)
            (dt + 86400 * (i : Int) - off) true).map
          (fun l => (fetch_x_data P off st (df + 86400 * (i : Int) - off)
            (dt + 86400 * (i : Int) - off), l))) ∘ Nat.succ) =
        fetch_pairs P now off st (df + 86400) (dt + 86400) n := by
      rw [ih (df + 86400) (dt + 86400)]
      apply List.filterMap_congr
      intro i _
      simp only [Function.comp, Nat.cast_succ, harg1, harg2]
    rw [htail]
    simp only [fetch_pairs, Nat.cast_zero, mul_zero, add_zero]
    cases h : fetch_label now off st (df - off) (dt - off) true with
    | none => simp
    | some l => simp

theorem fetch_data_eq (P : ProcessingFuncs) (now off : Int) (st : Store)
    (date_from days : Int) :
    fetch_data P now off st date_from days =
      (((List.range days.toNat).filterMap (dayResult P now off st date_from)).map
        Prod.fst,
       ((List.range days.toNat).filterMap (dayResult P now off st date_from)).map
        Prod.snd) := by
  unfold fetch_data
  rw [fetch_data_go_eq, fetch_pairs_eq_range]
  have hfun : ∀ i ∈ List.range days.toNat,
      (fetch_label now off st (date_from + 86400 * (i : Int) - off)
          (date_from + 86400 + 86400 * (i : Int) - off) true).map
        (fun l => (fetch_x_data P off st (date_from + 86400 * (i : Int) - off)
          (date_from + 86400 + 86400 * (i : Int) - off), l)) =
      dayResult P now off st date_from i := by
    intro i _
    have e : date_from + 86400 + 86400 * (i : Int) - off =
        date_from + 86400 * ((i : Int) + 1) - off := by ring
    simp only [dayResult, dayWindow, Nat.cast_add, Nat.cast_one, e]
  rw [List.filterMap_congr hfun]
  simp

/-- C1 counterexample: with the integer day-count -1, fetch_data returns two
empty sequences, whose length 0 is not at most -1. -/
theorem fetch_data_neg_days_counterexample :
    ¬ (((fetch_data P0 0 0 store0 0 (-1)).1.length : Int) ≤ -1) := by decide

/-- C1 (amended: the length bound is max(n, 0), since a negative day-count
yields empty sequences): fetch_data returns two sequences of equal length at
most max(days, 0); a day whose label is absent contributes to neither
sequence, and the emitted pairs follow the chronological order of the days:
the output is the filterMap of dayResult over the day indices in increasing
order. -/
theorem fetch_data_parallel_sequences (P : ProcessingFuncs) (now off : Int)
    (st : Store) (date_from days : Int) :
    (fetch_data P now off st date_from days).1.length =
      (fetch_data P now off st date_from days).2.length ∧
    ((fetch_data P now off st date_from days).1.length : Int) ≤ max days 0 ∧
    (fetch_data P now off st date_from days).1 =
      ((List.range days.toNat).filterMap (dayResult P now off st date_from)).map
        Prod.fst ∧
    (fetch_data P now off st date_from days).2 =
      ((List.range days.toNat).filterMap (dayResult P now off st date_from)).map
        Prod.snd := by
  rw [fetch_data_eq]
  refine ⟨by simp, ?_, rfl, rfl⟩
  have h1 : ((List.range days.toNat).filterMap
      (dayResult P now off st date_from)).length ≤ days.toNat :=
    le_trans (List.length_filterMap_le _ _) (by simp)
  have h2 : ((days.toNat : Int)) = max days 0 := Int.toNat_eq_max days
  simp only [List.length_map]
  omega

theorem fetch_pairs_eq_windows (P : ProcessingFuncs) (now off : Int)
    (st : Store) (df dt : Int) (n : Nat) :
    fetch_pairs P now off st df dt n =
      (fetch_windows df dt n).filterMap (fun w =>
        (fetch_label now off st (w.1 - off) (w.2 - off) true).map
          (fun l => (fetch_x_data P off st (w.1 - off) (w.2 - off), l))) := by
  induction n generalizing df dt with
  | zero => rfl
  | succ n ih =>
    simp only [fetch_pairs, fetch_windows, List.filterMap_cons]
    cases h : fetch_label now off st (df - off) (dt - off) true with
    | none => simp [ih]
    | some l => simp [ih]

theorem fetch_windows_day_length (df dt : Int) (n : Nat) :
    ∀ w ∈ fetch_windows df dt n, w.2 - w.1 = dt - df := by
  induction n generalizing df dt with
  | zero => intro w hw; simp [fetch_windows] at hw
  | succ n ih =>
    intro w hw
    simp only [fetch_windows, List.mem_cons] at hw
    rcases hw with rfl | hw
    · rfl
    · have := ih (df + 86400) (dt + 86400) w hw
      omega

theorem fetch_windows_step (df dt : Int) (n : Nat) :
    ∀ (i : Nat) (p q : Int × Int), (fetch_windows df dt n)[i]? = some p →
      (fetch_windows df dt n)[i + 1]? = some q →
      q.1 = p.1 + 86400 ∧ q.2 = p.2 + 86400 := by
  induction n generalizing df dt with
  | zero => intro i p q hp _; simp [fetch_windows] at hp
  | succ n ih =>
    intro i p q hp hq
    cases i with
    | zero =>
      simp only [fetch_windows, List.getElem?_cons_zero] at hp
      cases hp
      simp only [fetch_windows, List.getElem?_cons_succ] at hq
      cases n with
      | zero => simp [fetch_windows] at hq
      | succ m =>
        simp only [fetch_windows, List.getElem?_cons_zero] at hq
        cases hq
        exact ⟨rfl, rfl⟩
    | succ j =>
      simp only [fetch_windows, List.getElem?_cons_succ] at hp hq
      exact ih (df + 86400) (dt + 86400) j p q hp hq

/-- C4: every per-day window of the fetch_data loop spans exactly one day
(timestamp_to - timestamp_from = 86400 seconds) and consecutive windows are
contiguous: the window of iteration i+1 begins exactly where the window of
iteration i ends; the loop output is exactly a filterMap over these
windows. -/
theorem fetch_windows_contiguous (P : ProcessingFuncs) (now off : Int)
    (st : Store) (date_from days : Int) :
    (fetch_data P now off st date_from days =
      (((fetch_windows date_from (date_from + 86400) days.toNat).filterMap
          (fun w => (fetch_label now off st (w.1 - off) (w.2 - off) true).map
            (fun l => (fetch_x_data P off st (w.1 - off) (w.2 - off), l)))).map
        Prod.fst,
       ((fetch_windows date_from (date_from + 86400) days.toNat).filterMap
          (fun w => (fetch_label now off st (w.1 - off) (w.2 - off) true).map
            (fun l => (fetch_x_data P off st (w.1 - off) (w.2 - off), l)))).map
        Prod.snd)) ∧
    (∀ w ∈ fetch_windows date_from (date_from + 86400) days.toNat,
      (w.2 - off) - (w.1 - off) = 86400) ∧
    (∀ (i : Nat) (p q : Int × Int),
      (fetch_windows date_from (date_from + 86400) days.toNat)[i]? = some p →
      (fetch_windows date_from (date_from + 86400) days.toNat)[i + 1]? = some q →
      q.1 - off = p.2 - off) := by
  refine ⟨?_, ?_, ?_⟩
  · unfold fetch_data
    rw [fetch_data_go_eq, fetch_pairs_eq_windows]
    simp
  · intro w hw
    have := fetch_windows_day_length date_from (date_from + 86400) days.toNat w hw
    omega
  · intro i p q hp hq
    have hs := fetch_windows_step date_from (date_from + 86400) days.toNat i p q hp hq
    have hm := fetch_windows_day_length date_from (date_from + 86400) days.toNat p
      (List.getElem?_mem hp)
    omega

/-- C4 witness: the first two windows of a two-day run starting at naive
datetime 0 with offset 5. -/
theorem fetch_windows_contiguous_witness :
    (fetch_windows 0 86400 (2 : Int).toNat)[0]? = some ((0 : Int), (86400 : Int)) ∧
    (fetch_windows 0 86400 (2 : Int).toNat)[0 + 1]? =
      some ((86400 : Int), (172800 : Int)) ∧
    ((86400 : Int), (172800 : Int)).1 - 5 = ((0 : Int), (86400 : Int)).2 - 5 :=
  ⟨by decide, by decide,
    (fetch_windows_contiguous P0 0 5 store0 0 2).2.2 0 (0, 86400) (86400, 172800)
      (by decide) (by decide)⟩

theorem fetch_label_st_fst (cfg : EnvCfg) (now off tf tt : Int) (b : Bool)
    (s : Sys) :
    (fetch_label_st cfg now off tf tt b s).1 =
      fetch_label now off s.store tf tt b := by
  simp only [fetch_label_st, fetch_label, fetch_label_q]
  split_ifs
  · rfl
  · rfl
  · cases h : avgDayRating s.store tf tt <;> simp [runSelect, h]

theorem fetch_label_st_store (cfg : EnvCfg) (now off tf tt : Int) (b : Bool)
    (s : Sys) :
    ((fetch_label_st cfg now off tf tt b s).2).store = s.store := by
  simp only [fetch_label_st]
  split_ifs <;> rfl

theorem fetch_x_data_st_fst (cfg : EnvCfg) (P : ProcessingFuncs) (off : Int)
    (tf tt : Int) (s : Sys) :
    (fetch_x_data_st cfg P off tf tt s).1 = fetch_x_data P off s.store tf tt := rfl

theorem fetch_x_data_st_store (cfg : EnvCfg) (P : ProcessingFuncs) (off : Int)
    (tf tt : Int) (s : Sys) :
    ((fetch_x_data_st cfg P off tf tt s).2).store = s.store := rfl

theorem fetch_data_go_st_eq (cfg : EnvCfg) (P : ProcessingFuncs)
    (now off : Int) (df dt : Int) (n : Nat) (acc : List Row × List ℚ)
    (s : Sys) :
    (fetch_data_go_st cfg P now off df dt n acc s).1 =
      fetch_data_go P now off s.store df dt n acc ∧
    ((fetch_data_go_st cfg P now off df dt n acc s).2).store = s.store := by
  induction n generalizing df dt acc s with
  | zero => exact ⟨rfl, rfl⟩
  | succ n ih =>
    simp only [fetch_data_go_st, fetch_data_go, fetch_label_st_fst]
    cases h : fetch_label now off s.store (df - off) (dt - off) true with
    | none =>
      have hrec := ih (df + 86400) (dt + 86400) acc
        ((fetch_label_st cfg now off (df - off) (dt - off) true s).2)
      rw [fetch_label_st_store] at hrec
      exact hrec
    | some l =>
      have hx1 : (fetch_x_data_st cfg P off (df - off) (dt - off)
          ((fetch_label_st cfg now off (df - off) (dt - off) true s).2)).1 =
          fetch_x_data P off s.store (df - off) (dt - off) := by
        rw [fetch_x_data_st_fst, fetch_label_st_store]
      have hx2 : ((fetch_x_data_st cfg P off (df - off) (dt - off)
          ((fetch_label_st cfg now off (df - off) (dt - off) true s).2)).2).store
          = s.store := by
        rw [fetch_x_data_st_store, fetch_label_st_store]
      have hrec := ih (df + 86400) (dt + 86400)
        (acc.1 ++ [(fetch_x_data_st cfg P off (df - off) (dt - off)
          ((fetch_label_st cfg now off (df - off) (dt - off) true s).2)).1],
         acc.2 ++ [l])
        ((fetch_x_data_st cfg P off (df - off) (dt - off)
          ((fetch_label_st cfg now off (df - off) (dt - off) true s).2)).2)
      rw [hx2] at hrec
      rw [hx1] at hrec
      simp only [hx1]
      exact hrec

theorem fetch_data_st_eq (cfg : EnvCfg) (P : ProcessingFuncs)
    (now off date_from days : Int) (s : Sys) :
    (fetch_data_st cfg P now off date_from days s).1 =
      fetch_data P now off s.store date_from days ∧
    ((fetch_data_st cfg P now off date_from days s).2).store = s.store :=
  fetch_data_go_st_eq cfg P now off date_from (date_from + 86400) days.toNat
    ([], []) s

/-- C9: the extractor is deterministic over the store state: neither call
mutates any source row (the store component of the system state is unchanged)
and a second call with identical arguments against the resulting state yields
identical output. -/
theorem extractor_deterministic (cfg : EnvCfg) (P : ProcessingFuncs)
    (now off date_from days : Int) (s : Sys) :
    ((fetch_data_st cfg P now off date_from days s).2).store = s.store ∧
    (fetch_data_st cfg P now off date_from days
        ((fetch_data_st cfg P now off date_from days s).2)).1 =
      (fetch_data_st cfg P now off date_from days s).1 ∧
    ((fetch_data_st cfg P now off date_from days
        ((fetch_data_st cfg P now off date_from days s).2)).2).store = s.store := by
  obtain ⟨ha, hb⟩ := fetch_data_st_eq cfg P now off date_from days s
  obtain ⟨hc, hd⟩ := fetch_data_st_eq cfg P now off date_from days
    ((fetch_data_st cfg P now off date_from days s).2)
  refine ⟨hb, ?_, ?_⟩
  · rw [hc, hb, ha]
  · rw [hd, hb]
